import Mathlib

/-!
Verification of the `UserRankings` leaderboard component
(`src/components/leaderboard/UserRankings.tsx`).

The component's logic is embedded shallowly:
* workout logs, profiles and like rows are records mirroring the rows the
  component receives from the database client;
* the aggregation inside `fetchRankings` is a pure function from the fetched
  rows (each profile paired with the result of its like-count sub-fetch) and
  the selected day's bounds to the list of `UserRanking` values;
* `handleLike` is a pure function from the viewer, the outcome of the insert
  request, the target profile id and the current rankings state to the new
  state together with the observable effects (was a network call issued,
  was the user alerted);
* timestamps are epoch integers; the selected date is a day index, and the
  date library's `subDays`/`addDays` are modelled as integer shifts on it.
-/

/-- A `workout_logs` row as selected by the bulk query: a numeric `total`
(possibly null) and a completion timestamp (epoch milliseconds). -/
structure WorkoutLog where
  total : Option Int
  completed_at : Int
deriving Repr, DecidableEq

/-- A `profiles` row as selected by the bulk query, with its nested
(possibly null) `workout_logs` collection. -/
structure Profile where
  id : String
  first_name : Option String
  last_name : Option String
  profile_name : Option String
  workout_logs : Option (List WorkoutLog)
deriving Repr, DecidableEq

/-- A row of the `likes` count query (`select('count', { count: 'exact' })`). -/
structure LikesRow where
  count : Int
deriving Repr, DecidableEq

/-- The local `UserRanking` view-model record. -/
structure UserRanking where
  id : String
  first_name : String
  last_name : String
  profile_name : String
  total_workouts : Nat
  total_score : Int
  daily_score : Int
  likes : Int
  hasLiked : Bool
deriving Repr, DecidableEq

/-- `likesData ? likesData[0]?.count || 0 : 0`: the like count extracted from
the (possibly null) row list of the per-profile like-count query. -/
def likesCount (likesData : Option (List LikesRow)) : Int :=
  match likesData with
  | none => 0
  | some rows => (rows.head?.map LikesRow.count).getD 0

/-- The filter predicate of `dailyWorkouts`:
`completedAt >= new Date(todayStart) && completedAt <= new Date(todayEnd)`. -/
def inSelectedDay (todayStart todayEnd : Int) (log : WorkoutLog) : Bool :=
  todayStart ≤ log.completed_at && log.completed_at ≤ todayEnd

/-- `reduce((sum, log) => sum + (log.total || 0), 0)`. -/
def sumTotals (logs : List WorkoutLog) : Int :=
  logs.foldl (fun sum log => sum + log.total.getD 0) 0

/-- The body of `data.map(async (profile) => ...)` after a successful
like-count sub-fetch: builds the `UserRanking` record for one profile. -/
def aggregateProfile (p : Profile) (likes : Int) (todayStart todayEnd : Int) :
    UserRanking :=
  let dailyWorkouts := (p.workout_logs.map
    (fun logs => logs.filter (inSelectedDay todayStart todayEnd))).getD []
  let dailyScore := sumTotals dailyWorkouts
  { id := p.id
    first_name := p.first_name.getD ""
    last_name := p.last_name.getD ""
    profile_name := p.profile_name.getD ""
    total_workouts := (p.workout_logs.map List.length).getD 0
    total_score := (p.workout_logs.map sumTotals).getD 0
    daily_score := dailyScore
    likes := likes
    hasLiked := false }

/-- One element of the fetched data: a profile paired with the result of its
like-count sub-fetch (`Except.error` when `likesError` was non-null, otherwise
the possibly-null row list). -/
abbrev FetchRow := Profile × Except Unit (Option (List LikesRow))

/-- The `userStats` array produced by `Promise.all`: `none` stands for the
`null` sentinel returned when the like-count sub-fetch failed. -/
def userStats (input : List FetchRow) (todayStart todayEnd : Int) :
    List (Option UserRanking) :=
  input.map (fun row =>
    match row.2 with
    | Except.error _ => none
    | Except.ok likesData =>
        some (aggregateProfile row.1 (likesCount likesData) todayStart todayEnd))

/-- `userStats.filter(stat => stat !== null)`. -/
def validUserStats (input : List FetchRow) (todayStart todayEnd : Int) :
    List UserRanking :=
  (userStats input todayStart todayEnd).filterMap id

/-- The sort order of `sort((a, b) => b.daily_score - a.daily_score)`:
`a` precedes `b` when the comparator is ≤ 0, i.e. descending `daily_score`. -/
def rankingLe (a b : UserRanking) : Bool :=
  b.daily_score ≤ a.daily_score

/-- The sorted, truncated ranking list handed to `setRankings` on a
successful cycle: sort descending by `daily_score`, `slice(0, 10)`. -/
def fetchRankingsPure (input : List FetchRow) (todayStart todayEnd : Int) :
    List UserRanking :=
  ((validUserStats input todayStart todayEnd).mergeSort rankingLe).take 10

/-- A whole fetch cycle: on a bulk-query error the function returns early
(rankings untouched), and the `finally` block clears `loading` either way.
Result: (rankings state, loading flag). -/
def fetchCycle (bulk : Except Unit (List FetchRow))
    (todayStart todayEnd : Int) (prev : List UserRanking) :
    List UserRanking × Bool :=
  match bulk with
  | Except.error _ => (prev, false)
  | Except.ok input => (fetchRankingsPure input todayStart todayEnd, false)

/-- Whether a fetched profile survives the per-profile like-count sub-fetch
(`likesError` null). -/
def notDropped (row : FetchRow) : Bool :=
  match row.2 with
  | Except.ok _ => true
  | Except.error _ => false

/- Helper lemmas about the fold used by the aggregator. -/

theorem sumTotals_eq_sum_map (logs : List WorkoutLog) :
    sumTotals logs = (logs.map (fun log => log.total.getD 0)).sum := by
  suffices h : ∀ (a : Int),
      logs.foldl (fun sum log => sum + log.total.getD 0) a
        = a + (logs.map (fun log => log.total.getD 0)).sum by
    simpa [sumTotals] using h 0
  induction logs with
  | nil => intro a; simp
  | cons l ls ih =>
      intro a
      simp [List.foldl_cons, ih, add_assoc]

theorem validUserStats_length (input : List FetchRow) (s e : Int) :
    (validUserStats input s e).length = input.countP notDropped := by
  induction input with
  | nil => rfl
  | cons row rest ih =>
      cases row with
      | mk p lr =>
          cases lr with
          | error u =>
              simp [validUserStats, userStats, notDropped, List.countP_cons] at ih ⊢
              exact ih
          | ok likesData =>
              simp [validUserStats, userStats, notDropped, List.countP_cons] at ih ⊢
              exact ih

/-- C1: for every selected day's bounds and every profile, the computed
`daily_score` is the sum of the `total` fields over exactly the logs whose
`completed_at` lies in the inclusive interval `[todayStart, todayEnd]`;
in particular, totals `[5, 10]` inside the day and `[3]` outside yield
`daily_score = 15`, `total_score = 18`, `total_workouts = 3`. -/
theorem C1_daily_score_is_filtered_sum (p : Profile) (likes s e : Int) :
    ((aggregateProfile p likes s e).daily_score
      = (((p.workout_logs.getD []).filter
            (fun log => decide (s ≤ log.completed_at ∧ log.completed_at ≤ e))).map
          (fun log => log.total.getD 0)).sum)
    ∧ (aggregateProfile
        ⟨"alice", some "A", some "L", some "alice",
          some [⟨some 5, 100⟩, ⟨some 10, 200⟩, ⟨some 3, 5000⟩]⟩
        0 0 999).daily_score = 15
    ∧ (aggregateProfile
        ⟨"alice", some "A", some "L", some "alice",
          some [⟨some 5, 100⟩, ⟨some 10, 200⟩, ⟨some 3, 5000⟩]⟩
        0 0 999).total_score = 18
    ∧ (aggregateProfile
        ⟨"alice", some "A", some "L", some "alice",
          some [⟨some 5, 100⟩, ⟨some 10, 200⟩, ⟨some 3, 5000⟩]⟩
        0 0 999).total_workouts = 3 := by
  refine ⟨?_, by decide, by decide, by decide⟩
  have hpred : inSelectedDay s e
      = (fun log => decide (s ≤ log.completed_at ∧ log.completed_at ≤ e)) := by
    funext log
    simp [inSelectedDay]
  cases hp : p.workout_logs with
  | none => simp [aggregateProfile, hp, sumTotals]
  | some logs => simp [aggregateProfile, hp, sumTotals_eq_sum_map, hpred]

/-- C2: the ranking list has length `min 10 (number of profiles not dropped
by a like-count error)` and is ordered non-increasing by `daily_score`. -/
theorem C2_length_and_sorted (input : List FetchRow) (s e : Int) :
    (fetchRankingsPure input s e).length = min 10 (input.countP notDropped)
    ∧ (fetchRankingsPure input s e).Pairwise
        (fun a b => b.daily_score ≤ a.daily_score) := by
  constructor
  · simp [fetchRankingsPure, List.length_take, validUserStats_length]
  · have htrans : ∀ a b c : UserRanking,
        rankingLe a b → rankingLe b c → rankingLe a c := by
      intro a b c hab hbc
      simp only [rankingLe, decide_eq_true_eq] at *
      exact le_trans hbc hab
    have htotal : ∀ a b : UserRanking, rankingLe a b || rankingLe b a := by
      intro a b
      simp only [rankingLe, Bool.or_eq_true, decide_eq_true_eq]
      exact le_total _ _
    have hs := List.sorted_mergeSort htrans htotal (validUserStats input s e)
    have hs2 : ((validUserStats input s e).mergeSort rankingLe).Pairwise
        (fun a b => b.daily_score ≤ a.daily_score) := by
      refine hs.imp ?_
      intro a b h
      simpa [rankingLe] using h
    exact hs2.sublist (List.take_sublist 10 _)

/-- Outcome of the like-insert request: success, an error result
(`error` non-null), or a thrown exception caught by the `catch` block. -/
inductive InsertOutcome where
  | ok
  | errorResult
  | thrown
deriving Repr, DecidableEq

/-- The observable result of one `handleLike` invocation: the final rankings
state, whether the insert network call was issued, and whether the user was
alerted. -/
structure LikeResult where
  rankings : List UserRanking
  insertIssued : Bool
  alerted : Bool
deriving Repr, DecidableEq

/-- The optimistic update applied to one row of the rankings state. -/
def likeUpdate (profileId : String) (r : UserRanking) : UserRanking :=
  if r.id = profileId then { r with likes := r.likes + 1, hasLiked := true }
  else r

/-- The revert applied on an insert error result. -/
def likeRevert (profileId : String) (r : UserRanking) : UserRanking :=
  if r.id = profileId then { r with likes := r.likes - 1, hasLiked := false }
  else r

/-- `handleLike`: abort with an alert when unauthenticated; otherwise apply
the optimistic update, issue the insert, and on an error result map the
revert over the state; a thrown exception only alerts (no revert). -/
def handleLike (user : Option String) (outcome : InsertOutcome)
    (profileId : String) (rankings : List UserRanking) : LikeResult :=
  match user with
  | none => { rankings := rankings, insertIssued := false, alerted := true }
  | some _ =>
      let optimistic := rankings.map (likeUpdate profileId)
      match outcome with
      | InsertOutcome.ok =>
          { rankings := optimistic, insertIssued := true, alerted := false }
      | InsertOutcome.errorResult =>
          { rankings := optimistic.map (likeRevert profileId),
            insertIssued := true, alerted := true }
      | InsertOutcome.thrown =>
          { rankings := optimistic, insertIssued := true, alerted := true }

/-- C3 counterexample: when the insert request throws (rather than returning
an error result), the `catch` block does not revert the optimistic update,
so the final state differs from the pre-invocation state. -/
theorem C3_throw_not_reverted :
    (handleLike (some "viewer") InsertOutcome.thrown "p1"
        [⟨"p1", "A", "L", "alice", 3, 18, 15, 0, false⟩]).rankings
      ≠ [⟨"p1", "A", "L", "alice", 3, 18, 15, 0, false⟩] := by
  decide

/-- C3 (amended): if the insert returns an error result and no row of the
pre-invocation state with the target id already has `hasLiked = true`, the
final rankings equal the pre-invocation state; if the insert throws, the
final rankings equal the optimistically updated state (no revert). -/
theorem C3_error_result_reverts (u pid : String) (rankings : List UserRanking)
    (h : ∀ r ∈ rankings, r.id = pid → r.hasLiked = false) :
    (handleLike (some u) InsertOutcome.errorResult pid rankings).rankings
        = rankings
    ∧ (handleLike (some u) InsertOutcome.thrown pid rankings).rankings
        = rankings.map (likeUpdate pid) := by
  refine ⟨?_, rfl⟩
  show (rankings.map (likeUpdate pid)).map (likeRevert pid) = rankings
  rw [List.map_map]
  have hid : ∀ r ∈ rankings, (likeRevert pid ∘ likeUpdate pid) r = id r := by
    intro r hr
    by_cases hcase : r.id = pid
    · have hfl : r.hasLiked = false := h r hr hcase
      simp [likeUpdate, likeRevert, hcase]
      cases r
      simp_all
    · simp [likeUpdate, likeRevert, hcase]
  rw [List.map_congr_left hid, List.map_id]

/-- C3 witness: the amended statement instantiated at a concrete state. -/
theorem C3_error_result_reverts_witness :
    (handleLike (some "viewer") InsertOutcome.errorResult "p1"
        [⟨"p1", "A", "L", "alice", 3, 18, 15, 0, false⟩,
         ⟨"p2", "B", "M", "bob", 1, 4, 4, 2, true⟩]).rankings
      = [⟨"p1", "A", "L", "alice", 3, 18, 15, 0, false⟩,
         ⟨"p2", "B", "M", "bob", 1, 4, 4, 2, true⟩]
    ∧ (handleLike (some "viewer") InsertOutcome.thrown "p1"
        [⟨"p1", "A", "L", "alice", 3, 18, 15, 0, false⟩,
         ⟨"p2", "B", "M", "bob", 1, 4, 4, 2, true⟩]).rankings
      = [⟨"p1", "A", "L", "alice", 3, 18, 15, 0, false⟩,
         ⟨"p2", "B", "M", "bob", 1, 4, 4, 2, true⟩].map (likeUpdate "p1") :=
  C3_error_result_reverts "viewer" "p1"
    [⟨"p1", "A", "L", "alice", 3, 18, 15, 0, false⟩,
     ⟨"p2", "B", "M", "bob", 1, 4, 4, 2, true⟩]
    (by decide)

/-- C5: invoking the like action with no authenticated viewer issues no
network call, leaves every ranking row unchanged, and alerts the user. -/
theorem C5_unauthenticated_aborts (outcome : InsertOutcome) (pid : String)
    (rankings : List UserRanking) :
    handleLike none outcome pid rankings
      = { rankings := rankings, insertIssued := false, alerted := true } :=
  rfl

theorem handleLike_ok_rankings (u pid : String) (xs : List UserRanking) :
    (handleLike (some u) InsertOutcome.ok pid xs).rankings
      = xs.map (likeUpdate pid) :=
  rfl

/-- C6: a successful like by an authenticated viewer on an id present in the
rankings (with distinct row ids) changes exactly one row: the row with that
id gets `likes + 1` and `hasLiked = true`; every other row is unchanged. -/
theorem C6_success_changes_one_row (u pid : String)
    (rankings : List UserRanking)
    (hnd : (rankings.map UserRanking.id).Nodup)
    (hmem : pid ∈ rankings.map UserRanking.id) :
    ∃ l₁ r l₂, rankings = l₁ ++ r :: l₂ ∧ r.id = pid
      ∧ (∀ x ∈ l₁, x.id ≠ pid) ∧ (∀ x ∈ l₂, x.id ≠ pid)
      ∧ (handleLike (some u) InsertOutcome.ok pid rankings).rankings
          = l₁ ++ { r with likes := r.likes + 1, hasLiked := true } :: l₂ := by
  induction rankings with
  | nil => simp at hmem
  | cons a tl ih =>
      simp only [List.map_cons, List.nodup_cons] at hnd
      by_cases ha : a.id = pid
      · have htl : ∀ x ∈ tl, x.id ≠ pid := by
          intro x hx hxpid
          exact hnd.1 (ha ▸ hxpid ▸ List.mem_map.mpr ⟨x, hx, rfl⟩)
        refine ⟨[], a, tl, rfl, ha, by simp, htl, ?_⟩
        rw [handleLike_ok_rankings, List.map_cons]
        have hmap : ∀ x ∈ tl, likeUpdate pid x = id x := by
          intro x hx
          simp [likeUpdate, htl x hx]
        rw [List.map_congr_left hmap, List.map_id]
        simp [likeUpdate, ha]
      · have hmem' : pid ∈ tl.map UserRanking.id := by
          rcases List.mem_cons.mp hmem with h1 | h2
          · exact absurd h1.symm ha
          · exact h2
        obtain ⟨l₁, r, l₂, htl, hr, hl1, hl2, hmap⟩ := ih hnd.2 hmem'
        refine ⟨a :: l₁, r, l₂, by rw [htl, List.cons_append], hr, ?_, hl2, ?_⟩
        · intro x hx
          rcases List.mem_cons.mp hx with h1 | h2
          · exact h1 ▸ ha
          · exact hl1 x h2
        · rw [handleLike_ok_rankings, List.map_cons]
          rw [handleLike_ok_rankings] at hmap
          rw [hmap]
          simp [likeUpdate, ha]

/-- C6 witness: the frame property instantiated at a concrete state. -/
theorem C6_success_changes_one_row_witness :
    ∃ l₁ r l₂,
      [(⟨"p1", "A", "L", "alice", 3, 18, 15, 0, false⟩ : UserRanking),
       ⟨"p2", "B", "M", "bob", 1, 4, 4, 2, false⟩] = l₁ ++ r :: l₂
      ∧ r.id = "p2"
      ∧ (∀ x ∈ l₁, x.id ≠ "p2") ∧ (∀ x ∈ l₂, x.id ≠ "p2")
      ∧ (handleLike (some "viewer") InsertOutcome.ok "p2"
          [⟨"p1", "A", "L", "alice", 3, 18, 15, 0, false⟩,
           ⟨"p2", "B", "M", "bob", 1, 4, 4, 2, false⟩]).rankings
          = l₁ ++ { r with likes := r.likes + 1, hasLiked := true } :: l₂ :=
  C6_success_changes_one_row "viewer" "p2"
    [⟨"p1", "A", "L", "alice", 3, 18, 15, 0, false⟩,
     ⟨"p2", "B", "M", "bob", 1, 4, 4, 2, false⟩]
    (by decide) (by decide)

/-- C7: a like-count failure for one profile excludes exactly that profile:
the aggregated result (and hence the final ranking list) is the same as if
that profile were absent, so every other profile still appears. -/
theorem C7_like_error_drops_only_that_profile (l₁ l₂ : List FetchRow)
    (p : Profile) (s e : Int) :
    validUserStats (l₁ ++ (p, Except.error ()) :: l₂) s e
        = validUserStats (l₁ ++ l₂) s e
    ∧ fetchRankingsPure (l₁ ++ (p, Except.error ()) :: l₂) s e
        = fetchRankingsPure (l₁ ++ l₂) s e := by
  have h : validUserStats (l₁ ++ (p, Except.error ()) :: l₂) s e
      = validUserStats (l₁ ++ l₂) s e := by
    simp [validUserStats, userStats, List.filterMap_append]
  exact ⟨h, by rw [fetchRankingsPure, fetchRankingsPure, h]⟩

/-- C8: a bulk profile/log query failure aborts the cycle: the rankings state
is left as it was (empty or stale) and the loading flag is cleared. -/
theorem C8_bulk_failure_aborts (s e : Int) (prev : List UserRanking) :
    fetchCycle (Except.error ()) s e prev = (prev, false) :=
  rfl

/-- The date library's `subDays` on the selected date, modelled as a shift
on a calendar-day index. -/
def subDays (d : Int) (n : Int) : Int := d - n

/-- The date library's `addDays` on the selected date, modelled as a shift
on a calendar-day index. -/
def addDays (d : Int) (n : Int) : Int := d + n

/-- `handlePrevDay`: `setSelectedDate(prevDate => subDays(prevDate, 1))`. -/
def handlePrevDay (d : Int) : Int := subDays d 1

/-- `handleNextDay`: `setSelectedDate(prevDate => addDays(prevDate, 1))`. -/
def handleNextDay (d : Int) : Int := addDays d 1

/-- C9: "previous day" moves the selected date exactly one calendar day back
and "next day" exactly one forward, with no bounds checking: iterating them
reaches every date `d - n` and `d + n`. -/
theorem C9_day_navigation (d : Int) (n : Nat) :
    handlePrevDay d = d - 1 ∧ handleNextDay d = d + 1
    ∧ handlePrevDay^[n] d = d - n ∧ handleNextDay^[n] d = d + n := by
  refine ⟨rfl, rfl, ?_, ?_⟩
  · induction n with
    | zero => simp
    | succ k ih =>
        rw [Function.iterate_succ_apply', ih]
        simp [handlePrevDay, subDays]
        ring
  · induction n with
    | zero => simp
    | succ k ih =>
        rw [Function.iterate_succ_apply', ih]
        simp [handleNextDay, addDays]
        ring

theorem sum_map_filter_le (q : WorkoutLog → Bool) (logs : List WorkoutLog)
    (h : ∀ log ∈ logs, 0 ≤ log.total.getD 0) :
    ((logs.filter q).map (fun log => log.total.getD 0)).sum
      ≤ (logs.map (fun log => log.total.getD 0)).sum := by
  induction logs with
  | nil => simp
  | cons l ls ih =>
      have h0 : 0 ≤ l.total.getD 0 := h l (by simp)
      have ih' := ih (fun x hx => h x (by simp [hx]))
      by_cases hq : q l
      · simp only [List.filter_cons, hq, if_pos, List.map_cons, List.sum_cons]
        linarith
      · simp only [List.filter_cons, hq, List.map_cons, List.sum_cons,
          Bool.false_eq_true, if_neg, not_false_iff]
        linarith

/-- C4 counterexample: with a negative `total` on a log outside the selected
day, `daily_score` exceeds `total_score`, so the invariant fails for
arbitrary (negative) log totals as the claim ranges over. -/
theorem C4_negative_total_breaks_invariant :
    ¬ ((aggregateProfile
          ⟨"p", none, none, none, some [⟨some 5, 50⟩, ⟨some (-3), 1000⟩]⟩
          0 0 100).daily_score
        ≤ (aggregateProfile
          ⟨"p", none, none, none, some [⟨some 5, 50⟩, ⟨some (-3), 1000⟩]⟩
          0 0 100).total_score) := by
  decide

/-- C4 (amended): when every log's `total` (taken as 0 when missing) is
nonnegative, `daily_score ≤ total_score` holds for every aggregated entry. -/
theorem C4_daily_le_total_of_nonneg (p : Profile) (likes s e : Int)
    (h : ∀ log ∈ p.workout_logs.getD [], 0 ≤ log.total.getD 0) :
    (aggregateProfile p likes s e).daily_score
      ≤ (aggregateProfile p likes s e).total_score := by
  cases hp : p.workout_logs with
  | none => simp [aggregateProfile, sumTotals, hp]
  | some logs =>
      have h' : ∀ log ∈ logs, 0 ≤ log.total.getD 0 := by
        simpa [hp] using h
      simp only [aggregateProfile, hp, Option.map_some', Option.getD_some,
        sumTotals_eq_sum_map]
      exact sum_map_filter_le _ logs h'

/-- C4 witness: the amended invariant at a concrete profile. -/
theorem C4_daily_le_total_of_nonneg_witness :
    (aggregateProfile
        ⟨"alice", some "A", some "L", some "alice",
          some [⟨some 5, 100⟩, ⟨some 10, 200⟩, ⟨some 3, 5000⟩]⟩
        0 0 999).daily_score
      ≤ (aggregateProfile
        ⟨"alice", some "A", some "L", some "alice",
          some [⟨some 5, 100⟩, ⟨some 10, 200⟩, ⟨some 3, 5000⟩]⟩
        0 0 999).total_score :=
  C4_daily_le_total_of_nonneg
    ⟨"alice", some "A", some "L", some "alice",
      some [⟨some 5, 100⟩, ⟨some 10, 200⟩, ⟨some 3, 5000⟩]⟩
    0 0 999 (by decide)

/-- C10: a log with a null `total` contributes 0 to both `total_score` and
`daily_score` but still counts toward `total_workouts`; a profile whose
`workout_logs` is null or empty gets all-zero stats and still appears in the
aggregation input (it is not dropped for having no logs). -/
theorem C10_missing_values (id0 : String) (fn ln pn : Option String)
    (l₁ l₂ : List WorkoutLog) (t : Int) (likes s e : Int) :
    ((aggregateProfile ⟨id0, fn, ln, pn, some (l₁ ++ ⟨none, t⟩ :: l₂)⟩
        likes s e).total_score
      = (aggregateProfile ⟨id0, fn, ln, pn, some (l₁ ++ l₂)⟩
        likes s e).total_score)
    ∧ ((aggregateProfile ⟨id0, fn, ln, pn, some (l₁ ++ ⟨none, t⟩ :: l₂)⟩
        likes s e).daily_score
      = (aggregateProfile ⟨id0, fn, ln, pn, some (l₁ ++ l₂)⟩
        likes s e).daily_score)
    ∧ ((aggregateProfile ⟨id0, fn, ln, pn, some (l₁ ++ ⟨none, t⟩ :: l₂)⟩
        likes s e).total_workouts
      = (aggregateProfile ⟨id0, fn, ln, pn, some (l₁ ++ l₂)⟩
        likes s e).total_workouts + 1)
    ∧ (aggregateProfile ⟨id0, fn, ln, pn, none⟩ likes s e
        = { id := id0, first_name := fn.getD "", last_name := ln.getD "",
            profile_name := pn.getD "", total_workouts := 0, total_score := 0,
            daily_score := 0, likes := likes, hasLiked := false })
    ∧ (aggregateProfile ⟨id0, fn, ln, pn, some []⟩ likes s e
        = { id := id0, first_name := fn.getD "", last_name := ln.getD "",
            profile_name := pn.getD "", total_workouts := 0, total_score := 0,
            daily_score := 0, likes := likes, hasLiked := false })
    ∧ (∀ (rest : List FetchRow) (likesData : Option (List LikesRow)),
        aggregateProfile ⟨id0, fn, ln, pn, none⟩ (likesCount likesData) s e
          ∈ validUserStats
              ((⟨id0, fn, ln, pn, none⟩, Except.ok likesData) :: rest) s e) := by
  refine ⟨?_, ?_, ?_, rfl, rfl, ?_⟩
  · simp [aggregateProfile, sumTotals_eq_sum_map]
  · simp only [aggregateProfile, Option.map_some', Option.getD_some,
      sumTotals_eq_sum_map, List.filter_append, List.filter_cons]
    by_cases hq : inSelectedDay s e ⟨none, t⟩
    · simp [hq]
    · simp [hq]
  · simp [aggregateProfile]
    omega
  · intro rest likesData
    simp [validUserStats, userStats]
